import Mathlib

/-!
Verification of the extraction-and-classification pipeline of the
Sistema-Administrativo-Financeiro repository
(`src/backend/src/agent/pdf_processing.py` and
`src/backend/src/schemas/pdf_processing.py`).

Texts are modelled as `List Char`; Python `Decimal` and `float` values are
modelled as exact rationals `ℚ`; fallible code returns `Option`/`Except`.
-/

/-! ## Python string primitives used by the source -/

/-- Model of Python `str.lower` (faithful on the ASCII texts used in proofs). -/
def pylower (s : List Char) : List Char := s.map Char.toLower

/-- Characters Python `str.strip` removes. -/
def isPyWhitespace (c : Char) : Bool :=
  c = ' ' || c = '\t' || c = '\n' || c = '\r' || c = '\x0b' || c = '\x0c'

/-- Model of Python `str.strip()`: drop leading and trailing whitespace. -/
def pystrip (s : List Char) : List Char :=
  ((s.dropWhile isPyWhitespace).reverse.dropWhile isPyWhitespace).reverse

/-- Index of the first occurrence of `needle` as a contiguous substring of the
scanned list, scanning left to right (Python `str.find`-like). -/
def firstOccIdx (needle : List Char) : List Char → Option Nat
  | [] => if needle.isEmpty then some 0 else none
  | c :: t =>
    if needle.isPrefixOf (c :: t) then some 0
    else (firstOccIdx needle t).map (· + 1)

/-- Model of Python substring membership `needle in hay`. -/
def containsSub (hay needle : List Char) : Bool := (firstOccIdx needle hay).isSome

/-- Fuel-driven worker for `pysplit`. -/
def pysplitAux : Nat → List Char → List Char → List (List Char)
  | 0, _, s => [s]
  | fuel + 1, sep, s =>
    match firstOccIdx sep s with
    | none => [s]
    | some i => s.take i :: pysplitAux fuel sep (s.drop (i + sep.length))

/-- Model of Python `str.split(sep)` for a non-empty separator. -/
def pysplit (sep s : List Char) : List (List Char) := pysplitAux (s.length + 1) sep s

/-- Model of Python list indexing `xs[i]` on the result of a split (the source
always guards the index, so out-of-range defaults never arise on source paths). -/
def pyindex (xs : List (List Char)) (i : Nat) : List Char := xs.getD i []

/-! ## Keyword rule table (`_setup_classification_rules`, source lines 52-169) -/

structure CategoryRule where
  categoria : List Char
  keywords : List (List Char)
  confidence_boost : ℚ
deriving DecidableEq

/-- The nine fixed category rules, keyword lists verbatim from the source
(including the duplicated entries of the maintenance list). -/
def classification_rules : List CategoryRule :=
  [ ⟨"INSUMOS AGRÍCOLAS".data,
      ["semente", "sementes", "milho", "soja", "feijão", "arroz", "trigo",
       "fertilizante", "adubo", "ureia", "npk", "superfosfato", "cloreto de potássio",
       "sulfato de amônio", "fosfato", "nitrato",
       "defensivo", "herbicida", "inseticida", "fungicida", "pesticida", "agrotóxico",
       "roundup", "glifosato", "atrazina",
       "corretivo", "calcário", "cal", "gesso", "micronutriente", "inoculante"].map String.data,
      0.95⟩,
    ⟨"MANUTENÇÃO E OPERAÇÃO".data,
      ["combustível", "diesel", "gasolina", "álcool", "etanol", "óleo", "lubrificante",
       "graxa", "fluido hidráulico", "s10", "aditivado", "b s10",
       "peça", "peças", "parafuso", "porca", "arruela", "rolamento", "vedação",
       "componente", "reparo", "reposição", "tubo", "cabo", "kit", "fixação", "fixacoes",
       "din", "parafuso", "porca", "arruela", "bucha", "anel", "junta",
       "manutenção", "conserto", "oficina", "mecânico", "soldagem",
       "pneu", "pneus", "filtro", "correia", "mangueira", "vela", "bateria"].map String.data,
      0.9⟩,
    ⟨"RECURSOS HUMANOS".data,
      ["mão de obra", "trabalhador", "funcionário", "operário", "diarista",
       "temporário", "safrista",
       "salário", "ordenado", "pagamento", "encargo", "fgts", "inss",
       "vale transporte", "vale refeição", "cesta básica", "13º salário",
       "férias", "rescisão"].map String.data,
      0.95⟩,
    ⟨"SERVIÇOS OPERACIONAIS".data,
      ["frete", "transporte", "carreto", "mudança", "logística",
       "colheita", "terceirizada", "colheitadeira", "prestação de serviço",
       "secagem", "armazenagem", "silo", "estocagem", "beneficiamento",
       "pulverização", "aplicação", "plantio", "semeadura", "cultivo"].map String.data,
      0.9⟩,
    ⟨"INFRAESTRUTURA E UTILIDADES".data,
      ["energia", "elétrica", "eletricidade", "luz", "força",
       "arrendamento", "aluguel", "terra", "propriedade", "hectare",
       "construção", "reforma", "obra", "edificação", "ampliação",
       "material", "concreto", "cimento", "ferro", "madeira", "tijolo",
       "telha", "tinta", "hidráulico", "elétrico"].map String.data,
      0.85⟩,
    ⟨"ADMINISTRATIVAS".data,
      ["honorário", "contábil", "advocatício", "agronômico", "consultoria",
       "assessoria", "auditoria", "perícia",
       "despesa bancária", "financeira", "juros", "tarifa", "anuidade",
       "cartão", "conta corrente", "empréstimo"].map String.data,
      0.9⟩,
    ⟨"SEGUROS E PROTEÇÃO".data,
      ["seguro", "agrícola", "rural", "safra", "produtividade",
       "ativo", "máquina", "veículo", "equipamento",
       "prestamista", "vida", "proteção", "cobertura", "sinistro"].map String.data,
      0.95⟩,
    ⟨"IMPOSTOS E TAXAS".data,
      ["itr", "iptu", "ipva", "incra", "ccir", "imposto", "taxa",
       "contribuição", "tributo", "icms", "ipi", "pis", "cofins",
       "ir", "csll", "simples"].map String.data,
      0.98⟩,
    ⟨"INVESTIMENTOS".data,
      ["aquisição", "compra", "investimento", "ativo",
       "máquina", "implemento", "trator", "colheitadeira", "plantadeira",
       "pulverizador", "grade", "arado", "equipamento",
       "veículo", "caminhão", "caminhonete", "carro", "motocicleta",
       "imóvel", "propriedade", "fazenda", "sítio", "infraestrutura",
       "benfeitorias", "instalações"].map String.data,
      0.85⟩ ]

/-! ## Confidence scorer (`_calculate_classification_confidence`, lines 525-585) -/

/-- Fixed fiscal-term list from the source (line 568). -/
def fiscal_keywords : List (List Char) :=
  ["imposto", "taxa", "icms", "ipi", "pis", "cofins", "itr", "iptu"].map String.data

/-- Fixed product-indicator token list from the source (lines 572-574). -/
def product_indicators : List (List Char) :=
  ["litros", "unidade", "pc", "kg", "ton", "m", "cm", "mm",
   "quantidade", "valor unitário", "código", "ncm", "l de",
   "granel", "tubo", "kit", "cabo", "parafuso", "din"].map String.data

/-- Number of keywords found (as substrings) in the product description;
each loop iteration of the source tests the description first. -/
def found_keywords_descricao (keywords : List (List Char)) (descricao : List Char) : Nat :=
  (keywords.filter (fun kw => containsSub descricao kw)).length

/-- Number of keywords found in the full text only (the source's `elif` branch:
a keyword already found in the description is not counted here again). -/
def found_keywords_texto (keywords : List (List Char)) (descricao texto : List Char) : Nat :=
  (keywords.filter (fun kw => !containsSub descricao kw && containsSub texto kw)).length

/-- Whether the category's keyword list contains one of the fiscal terms
(source line 569, Python list membership). -/
def is_fiscal_category (keywords : List (List Char)) : Bool :=
  fiscal_keywords.any (fun kw => keywords.contains kw)

/-- Whether the description contains one of the product-indicator tokens
(source line 575). -/
def has_product_description (descricao : List Char) : Bool :=
  product_indicators.any (fun indicator => containsSub descricao indicator)

set_option linter.unusedVariables false in
/-- Embedding of `_calculate_classification_confidence` (lines 525-585).
`weighted_keywords` is computed exactly as in the source and, as in the
source, never read afterwards. -/
def _calculate_classification_confidence
    (texto descricao : List Char) (keywords : List (List Char)) : ℚ :=
  let total_keywords := keywords.length
  let fd := found_keywords_descricao keywords descricao
  let ft := found_keywords_texto keywords descricao texto
  let weighted_keywords := fd * 3 + ft
  let total_found := fd + ft
  if total_found = 0 then 0
  else
    let base_confidence : ℚ := (total_found : ℚ) / (total_keywords : ℚ)
    let base_confidence := if total_found > 1 then base_confidence * 1.2 else base_confidence
    let base_confidence := if fd > 0 then base_confidence * 1.5 else base_confidence
    let base_confidence :=
      if is_fiscal_category keywords then
        if fd = 0 then base_confidence * 0.1
        else if has_product_description descricao then base_confidence * 0.2
        else base_confidence
      else base_confidence
    min base_confidence 1

/-! ## Data model (`schemas/pdf_processing.py`) -/

/-- A calendar date as produced by `datetime.strptime(...).date()`. -/
structure PlainDate where
  year : Nat
  month : Nat
  day : Nat
deriving DecidableEq

/-- Embedding of `FornecedorExtraidoSchema`. -/
structure FornecedorExtraido where
  razao_social : List Char
  nome_fantasia : Option (List Char)
  cnpj : List Char
deriving DecidableEq

/-- Embedding of `FaturadoExtraidoSchema`. -/
structure FaturadoExtraido where
  nome_completo : List Char
  cpf : List Char
deriving DecidableEq

/-- Embedding of `ParcelaExtraidaSchema`. -/
structure ParcelaExtraida where
  numero_parcela : Int
  data_vencimento : PlainDate
  valor_parcela : ℚ
deriving DecidableEq

/-- Embedding of `ClassificacaoDespesaExtraidaSchema`. -/
structure ClassificacaoDespesaExtraida where
  categoria : List Char
  descricao : List Char
  percentual : ℚ
  confianca : ℚ
deriving DecidableEq

/-- Embedding of `DadosExtraidosPDFSchema`. -/
structure DadosExtraidosPDF where
  numero_nota_fiscal : Option (List Char)
  data_emissao : PlainDate
  descricao_produtos : List Char
  valor_total : ℚ
  fornecedor : FornecedorExtraido
  faturado : Option FaturadoExtraido
  parcelas : List ParcelaExtraida
  quantidade_parcelas : Int
  classificacoes_despesa : List ClassificacaoDespesaExtraida
  confianca_geral : ℚ
  observacoes_ia : Option (List Char)
deriving DecidableEq

/-- Embedding of `ProcessamentoPDFResponseSchema`. -/
structure ProcessamentoPDFResponse where
  sucesso : Bool
  dados_extraidos : Option DadosExtraidosPDF
  erro : Option (List Char)
  tempo_processamento : ℚ
deriving DecidableEq

/-! ## Classifier (`_apply_automatic_classification`, lines 466-523, and
`_generate_specific_description`, lines 591-605) -/

/-- Embedding of `_generate_specific_description`: list up to three matched
keywords after the category name, or a generic label when none matched. -/
def _generate_specific_description
    (categoria texto descricao : List Char) (keywords : List (List Char)) : List Char :=
  let found_keywords := keywords.filter (fun kw => containsSub texto kw || containsSub descricao kw)
  if found_keywords.isEmpty then
    categoria ++ " - Classificação automática".data
  else
    categoria ++ " - ".data ++ List.intercalate ", ".data (found_keywords.take 3)

/-- The fallback classification emitted when no category passes the threshold
(source lines 509-517). -/
def fallbackClassificacao : ClassificacaoDespesaExtraida :=
  ⟨"ADMINISTRATIVAS".data, "Classificação automática - Revisar manualmente".data, 100, 0.2⟩

/-- The per-category loop of `_apply_automatic_classification` (lines 482-506):
keep each category scoring strictly above the `0.15` threshold, with its
generated description. -/
def classificacoesLoop (texto_lower descricao_lower : List Char) :
    List ClassificacaoDespesaExtraida :=
  classification_rules.filterMap (fun rule =>
    let confidence := _calculate_classification_confidence texto_lower descricao_lower rule.keywords
    if confidence > 0.15 then
      some ⟨rule.categoria,
            _generate_specific_description rule.categoria texto_lower descricao_lower rule.keywords,
            100, confidence⟩
    else none)

/-- Boolean descending comparison on confidence used for the final sort
(`classificacoes.sort(key=..., reverse=True)`, a stable descending sort). -/
def confDesc (a b : ClassificacaoDespesaExtraida) : Bool := decide (b.confianca ≤ a.confianca)

/-- The classification list the classifier computes for a record and the full
text: threshold loop, fallback when empty, stable descending sort, top three. -/
def computedClassificacoes (dados : DadosExtraidosPDF) (texto_original : List Char) :
    List ClassificacaoDespesaExtraida :=
  let texto_lower := pylower texto_original
  let descricao_lower := pylower dados.descricao_produtos
  let classificacoes := classificacoesLoop texto_lower descricao_lower
  let classificacoes := if classificacoes.isEmpty then [fallbackClassificacao] else classificacoes
  (classificacoes.mergeSort confDesc).take 3

/-- Embedding of `_apply_automatic_classification`: replaces the record's
expense-classification list with the computed one. -/
def _apply_automatic_classification
    (dados : DadosExtraidosPDF) (texto_original : List Char) : DadosExtraidosPDF :=
  { dados with classificacoes_despesa := computedClassificacoes dados texto_original }

/-! ## Validator/normalizer (`_validate_and_structure_data`, lines 407-464) -/

/-- Numeric value of a digit string (most significant digit first). -/
def digitsToNat (ds : List Char) : Nat :=
  ds.foldl (fun acc c => acc * 10 + (c.toNat - '0'.toNat)) 0

def isLeapYear (y : Nat) : Bool := (y % 4 = 0 && y % 100 ≠ 0) || y % 400 = 0

def daysInMonth (y m : Nat) : Nat :=
  if m = 2 then (if isLeapYear y then 29 else 28)
  else if m = 4 || m = 6 || m = 9 || m = 11 then 30
  else 31

/-- Model of `datetime.strptime(s, "%Y-%m-%d").date()`: exactly four year
digits, one or two month and day digits, and a calendar-valid month/day. -/
def strptimeYMD (s : List Char) : Option PlainDate :=
  match pysplit ['-'] s with
  | [ys, ms, ds] =>
    if ys.length = 4 ∧ ys.all Char.isDigit = true
        ∧ 1 ≤ ms.length ∧ ms.length ≤ 2 ∧ ms.all Char.isDigit = true
        ∧ 1 ≤ ds.length ∧ ds.length ≤ 2 ∧ ds.all Char.isDigit = true then
      let y := digitsToNat ys
      let m := digitsToNat ms
      let d := digitsToNat ds
      if 1 ≤ m ∧ m ≤ 12 ∧ 1 ≤ d ∧ d ≤ daysInMonth y m then some ⟨y, m, d⟩ else none
    else none
  | _ => none

/-- Zero-padded decimal rendering of a natural number. -/
def padNat (width n : Nat) : List Char :=
  let ds := Nat.toDigits 10 n
  List.replicate (width - ds.length) '0' ++ ds

/-- Model of Python `date.isoformat()` re-serialization. -/
def dateIsoformat (d : PlainDate) : List Char :=
  padNat 4 d.year ++ "-".data ++ padNat 2 d.month ++ "-".data ++ padNat 2 d.day

/-- Model of `decimal.Decimal(string)` on finite decimal literals (optional
sign, digits, optional fractional part) — the shapes the pipeline feeds it.
The result is an exact rational, with no binary floating-point rounding. -/
def decimalOfString (s : List Char) : Option ℚ :=
  let core : List Char → Option ℚ := fun r =>
    match pysplit ['.'] r with
    | [ip] =>
      if ip ≠ [] ∧ ip.all Char.isDigit = true then some ((digitsToNat ip : ℚ)) else none
    | [ip, fp] =>
      if ip ++ fp ≠ [] ∧ ip.all Char.isDigit = true ∧ fp.all Char.isDigit = true then
        some ((digitsToNat ip : ℚ) + (digitsToNat fp : ℚ) / (10 : ℚ) ^ fp.length)
      else none
    | _ => none
  if s.headD ' ' = '-' then (core (s.drop 1)).map (fun q => -q)
  else if s.headD ' ' = '+' then core (s.drop 1)
  else core s

/-- A date field of the decoded payload: either still a string or already a
date value (the source checks `isinstance(..., str)` before converting). -/
inductive LooseDateField where
  | str (s : List Char)
  | date (d : PlainDate)
deriving DecidableEq

/-- An amount field of the decoded payload: either a string or a number. -/
inductive LooseDecimalField where
  | str (s : List Char)
  | num (q : ℚ)
deriving DecidableEq

/-- One decoded installment dictionary. -/
structure LooseParcela where
  numero_parcela : Int
  data_vencimento : LooseDateField
  valor_parcela : LooseDecimalField
deriving DecidableEq

/-- The decoded payload dictionary as consumed by the validator. -/
structure LooseData where
  numero_nota_fiscal : Option (List Char)
  data_emissao : LooseDateField
  descricao_produtos : List Char
  valor_total : LooseDecimalField
  fornecedor : FornecedorExtraido
  faturado : Option FaturadoExtraido
  parcelas : List LooseParcela
  quantidade_parcelas : Int
  confianca_geral : ℚ
  observacoes_ia : Option (List Char)
deriving DecidableEq

/-- String dates are parsed with `strptime`; date values pass through. -/
def coerceDateField : LooseDateField → Option PlainDate
  | .str s => strptimeYMD s
  | .date d => some d

/-- String amounts are parsed with `Decimal`; numeric values pass through. -/
def coerceDecimalField : LooseDecimalField → Option ℚ
  | .str s => decimalOfString s
  | .num q => some q

/-- Coercion of a single installment (source lines 421-428): its date and its
amount are converted with the same rules as the top-level fields. -/
def coerceParcela (p : LooseParcela) : Option ParcelaExtraida :=
  match coerceDateField p.data_vencimento, coerceDecimalField p.valor_parcela with
  | some d, some v => some ⟨p.numero_parcela, d, v⟩
  | _, _ => none

/-- The `for parcela in data["parcelas"]` loop: coerce each installment. -/
def coerceParcelas : List LooseParcela → Option (List ParcelaExtraida)
  | [] => some []
  | p :: ps =>
    match coerceParcela p, coerceParcelas ps with
    | some q, some qs => some (q :: qs)
    | _, _ => none

/-- The temporary classification the validator writes into every record
(source lines 437-444). -/
def placeholderClassificacao : ClassificacaoDespesaExtraida :=
  ⟨"MANUTENÇÃO E OPERAÇÃO".data, "Óleo diesel - Combustível".data, 100, 0.9⟩

/-- The `Field` constraints `DadosExtraidosPDFSchema` enforces on construction
(`schemas/pdf_processing.py` lines 38-79): positive total, at least one
installment, each installment numbered from 1 with positive amount, at least
one classification with percentage in [0,100] and confidence in [0,1],
installment count at least 1, overall confidence in [0,1].  No constraint
relates `quantidade_parcelas` to `len(parcelas)`. -/
def pydanticChecks (d : DadosExtraidosPDF) : Bool :=
  decide (0 < d.valor_total) &&
  !d.parcelas.isEmpty &&
  d.parcelas.all (fun p => decide (1 ≤ p.numero_parcela) && decide (0 < p.valor_parcela)) &&
  decide (1 ≤ d.quantidade_parcelas) &&
  !d.classificacoes_despesa.isEmpty &&
  d.classificacoes_despesa.all (fun c =>
    decide (0 ≤ c.percentual) && decide (c.percentual ≤ 100) &&
    decide (0 ≤ c.confianca) && decide (c.confianca ≤ 1)) &&
  decide (0 ≤ d.confianca_geral) && decide (d.confianca_geral ≤ 1)

/-- Embedding of `_validate_and_structure_data`: coerce string dates and
amounts, overwrite the classification list with the placeholder, construct the
schema; any conversion or constraint failure becomes a single error value. -/
def _validate_and_structure_data (data : LooseData) : Except (List Char) DadosExtraidosPDF :=
  match coerceDateField data.data_emissao, coerceParcelas data.parcelas,
        coerceDecimalField data.valor_total with
  | some data_emissao, some parcelas, some valor_total =>
    let result : DadosExtraidosPDF :=
      { numero_nota_fiscal := data.numero_nota_fiscal
        data_emissao := data_emissao
        descricao_produtos := data.descricao_produtos
        valor_total := valor_total
        fornecedor := data.fornecedor
        faturado := data.faturado
        parcelas := parcelas
        quantidade_parcelas := data.quantidade_parcelas
        classificacoes_despesa := [placeholderClassificacao]
        confianca_geral := data.confianca_geral
        observacoes_ia := data.observacoes_ia }
    if pydanticChecks result then Except.ok result
    else Except.error "Dados extraídos inválidos".data
  | _, _, _ => Except.error "Dados extraídos inválidos".data

/-! ## Model of `json.loads` with error positions (Python stdlib `json`,
consumed by `_parse_gemini_response`) -/

/-- Decoded JSON values. -/
inductive Json where
  | null
  | bool (b : Bool)
  | num (q : ℚ)
  | str (s : List Char)
  | arr (elems : List Json)
  | obj (fields : List (List Char × Json))

/-- Skip JSON whitespace, advancing the absolute position. -/
def jsonSkipWs : List Char → Nat → List Char × Nat
  | [], pos => ([], pos)
  | c :: t, pos =>
    if c = ' ' || c = '\t' || c = '\n' || c = '\r' then jsonSkipWs t (pos + 1)
    else (c :: t, pos)

/-- Parse the body of a JSON string after its opening quote: returns the
decoded characters, the rest of the input and the position past the closing
quote; an unterminated string or unsupported escape is a positioned error
(the model covers the single-character escapes; it omits the rarely-produced
form of unicode escapes). -/
def jsonParseStringBody : List Char → Nat → Except Nat (List Char × List Char × Nat)
  | [], pos => Except.error pos
  | ['\\'], pos => Except.error (pos + 1)
  | '\\' :: e :: t, pos =>
    let esc : Option Char :=
      if e = '"' then some '"' else if e = '\\' then some '\\'
      else if e = '/' then some '/' else if e = 'b' then some '\x08'
      else if e = 'f' then some '\x0c' else if e = 'n' then some '\n'
      else if e = 'r' then some '\r' else if e = 't' then some '\t'
      else none
    match esc with
    | some c => (jsonParseStringBody t (pos + 2)).map (fun r => (c :: r.1, r.2.1, r.2.2))
    | none => Except.error pos
  | '"' :: t, pos => Except.ok ([], t, pos + 1)
  | c :: t, pos => (jsonParseStringBody t (pos + 1)).map (fun r => (c :: r.1, r.2.1, r.2.2))

/-- Longest digit run at the head of the input. -/
def takeDigits : List Char → List Char × List Char
  | [] => ([], [])
  | c :: t =>
    if c.isDigit then
      let r := takeDigits t
      (c :: r.1, r.2)
    else ([], c :: t)

/-- Parse a JSON number per the JSON grammar: `-?(0|[1-9][0-9]*)` with
optional `.digits` and optional exponent; stops at the first character the
grammar does not admit, like Python's number regex. -/
def jsonParseNumber (s : List Char) (pos : Nat) : Except Nat (ℚ × List Char × Nat) :=
  let signed : Bool := match s with | '-' :: _ => true | _ => false
  let s1 := if signed then s.drop 1 else s
  let p1 := if signed then pos + 1 else pos
  match s1 with
  | '0' :: t =>
    let intVal : ℚ := 0
    Except.ok (intVal, t, p1 + 1)
  | c :: _ =>
    if c.isDigit then
      let r := takeDigits s1
      Except.ok ((digitsToNat r.1 : ℚ), r.2, p1 + r.1.length)
    else Except.error pos
  | [] => Except.error pos

/-- Fraction and exponent continuation of a number already parsed to `q`. -/
def jsonParseNumberTail (q : ℚ) (s : List Char) (pos : Nat) : ℚ × List Char × Nat :=
  let (q, s, pos) :=
    match s with
    | '.' :: t =>
      let r := takeDigits t
      if r.1.isEmpty then (q, s, pos)
      else (q + (digitsToNat r.1 : ℚ) / (10 : ℚ) ^ r.1.length, r.2, pos + 1 + r.1.length)
    | _ => (q, s, pos)
  match s with
  | e :: t =>
    if e = 'e' || e = 'E' then
      let expSigned : Option Bool := match t with
        | '+' :: _ => some false
        | '-' :: _ => some true
        | _ => none
      let t1 := if expSigned.isSome then t.drop 1 else t
      let r := takeDigits t1
      if r.1.isEmpty then (q, s, pos)
      else
        let n := digitsToNat r.1
        let q' := if expSigned = some true then q / (10 : ℚ) ^ n else q * (10 : ℚ) ^ n
        (q', r.2, pos + 1 + (if expSigned.isSome then 1 else 0) + r.1.length)
    else (q, s, pos)
  | [] => (q, s, pos)

mutual

/-- Parse one JSON value; errors carry the absolute character position, as
Python's `JSONDecodeError.pos` does. -/
def jsonParseValue : Nat → List Char → Nat → Except Nat (Json × List Char × Nat)
  | 0, _, pos => Except.error pos
  | fuel + 1, s, pos =>
    let ws := jsonSkipWs s pos
    match ws.1 with
    | [] => Except.error ws.2
    | '{' :: t =>
      let ws1 := jsonSkipWs t (ws.2 + 1)
      match ws1.1 with
      | '}' :: r => Except.ok (Json.obj [], r, ws1.2 + 1)
      | _ => jsonParseMembers fuel ws1.1 ws1.2 []
    | '[' :: t =>
      let ws1 := jsonSkipWs t (ws.2 + 1)
      match ws1.1 with
      | ']' :: r => Except.ok (Json.arr [], r, ws1.2 + 1)
      | _ => jsonParseElements fuel ws1.1 ws1.2 []
    | '"' :: t =>
      (jsonParseStringBody t (ws.2 + 1)).map (fun r => (Json.str r.1, r.2.1, r.2.2))
    | 't' :: t =>
      if "rue".data.isPrefixOf t then Except.ok (Json.bool true, t.drop 3, ws.2 + 4)
      else Except.error ws.2
    | 'f' :: t =>
      if "alse".data.isPrefixOf t then Except.ok (Json.bool false, t.drop 4, ws.2 + 5)
      else Except.error ws.2
    | 'n' :: t =>
      if "ull".data.isPrefixOf t then Except.ok (Json.null, t.drop 3, ws.2 + 4)
      else Except.error ws.2
    | c :: _ =>
      if c = '-' || c.isDigit then
        match jsonParseNumber ws.1 ws.2 with
        | Except.error p => Except.error p
        | Except.ok r =>
          let tail := jsonParseNumberTail r.1 r.2.1 r.2.2
          let q := if (ws.1.headD ' ') = '-' then -tail.1 else tail.1
          Except.ok (Json.num q, tail.2.1, tail.2.2)
      else Except.error ws.2

/-- Parse the members of an object after its opening brace (first member
pending); accumulates parsed fields. -/
def jsonParseMembers : Nat → List Char → Nat → List (List Char × Json) →
    Except Nat (Json × List Char × Nat)
  | 0, _, pos, _ => Except.error pos
  | fuel + 1, s, pos, acc =>
    match s with
    | '"' :: t =>
      match jsonParseStringBody t (pos + 1) with
      | Except.error p => Except.error p
      | Except.ok key =>
        let ws := jsonSkipWs key.2.1 key.2.2
        match ws.1 with
        | ':' :: t2 =>
          match jsonParseValue fuel t2 (ws.2 + 1) with
          | Except.error p => Except.error p
          | Except.ok v =>
            let ws2 := jsonSkipWs v.2.1 v.2.2
            match ws2.1 with
            | ',' :: t3 =>
              let ws3 := jsonSkipWs t3 (ws2.2 + 1)
              jsonParseMembers fuel ws3.1 ws3.2 (acc ++ [(key.1, v.1)])
            | '}' :: t3 => Except.ok (Json.obj (acc ++ [(key.1, v.1)]), t3, ws2.2 + 1)
            | _ => Except.error ws2.2
        | _ => Except.error ws.2
    | _ => Except.error pos

/-- Parse the elements of an array after its opening bracket (first element
pending); accumulates parsed elements. -/
def jsonParseElements : Nat → List Char → Nat → List Json →
    Except Nat (Json × List Char × Nat)
  | 0, _, pos, _ => Except.error pos
  | fuel + 1, s, pos, acc =>
    match jsonParseValue fuel s pos with
    | Except.error p => Except.error p
    | Except.ok v =>
      let ws := jsonSkipWs v.2.1 v.2.2
      match ws.1 with
      | ',' :: t => jsonParseElements fuel t (ws.2 + 1) (acc ++ [v.1])
      | ']' :: t => Except.ok (Json.arr (acc ++ [v.1]), t, ws.2 + 1)
      | _ => Except.error ws.2

end

/-- Model of `json.loads`: parse one value, then require only trailing
whitespace; errors carry the absolute position of the failure. -/
def json_loads (s : List Char) : Except Nat Json :=
  match jsonParseValue (2 * s.length + 2) s 0 with
  | Except.error pos => Except.error pos
  | Except.ok r =>
    let ws := jsonSkipWs r.2.1 r.2.2
    if ws.1.isEmpty then Except.ok r.1 else Except.error ws.2

/-- Model of `JSONDecodeError.lineno`: newlines before the failure position, plus one. -/
def jsonErrorLineno (doc : List Char) (pos : Nat) : Nat := (doc.take pos).count '\n' + 1

/-- Model of `JSONDecodeError.colno`: position minus the index of the last newline
before it (`doc.rfind`), which is `pos + 1` when there is none. -/
def jsonErrorColno (doc : List Char) (pos : Nat) : Nat :=
  match ((doc.take pos).reverse.findIdx? (fun c => c = '\n')).map
      (fun k => (doc.take pos).length - 1 - k) with
  | none => pos + 1
  | some j => pos - j

/-! ## Response parser (`_parse_gemini_response`, lines 363-405) -/

/-- The fence marker tagged for JSON. -/
def fenceJsonMarker : List Char := "```json".data

/-- The plain fence marker. -/
def fenceMarker : List Char := "```".data

/-- The cleaned text `_parse_gemini_response` submits to `json.loads`: strip,
then if a tagged fence is present take `split("```json")[1].split("```")[0]`,
else if any fence is present take `split("```")[1].split("```")[0]`, then
strip again. -/
def geminiJsonText (response_text : List Char) : List Char :=
  let json_text := pystrip response_text
  let json_text :=
    if containsSub json_text fenceJsonMarker then
      pyindex (pysplit fenceMarker (pyindex (pysplit fenceJsonMarker json_text) 1)) 0
    else if containsSub json_text fenceMarker then
      pyindex (pysplit fenceMarker (pyindex (pysplit fenceMarker json_text) 1)) 0
    else json_text
  pystrip json_text

/-- Embedding of `_parse_gemini_response`: decode the cleaned text; a decode
failure is fatal and carries the line/column of the failure (the
`ValueError` the source raises embeds `JSONDecodeError`'s line and column). -/
def _parse_gemini_response (response_text : List Char) : Except (Nat × Nat) Json :=
  let json_text := geminiJsonText response_text
  match json_loads json_text with
  | Except.ok v => Except.ok v
  | Except.error pos =>
    Except.error (jsonErrorLineno json_text pos, jsonErrorColno json_text pos)

/-! ## Prompt builder and pipeline orchestrator (lines 171-361) -/

/-- Fixed prompt text before the embedded document text (abbreviated: the
schema-contract body of the prompt is fixed prose no claim inspects). -/
def promptHeader : List Char :=
  ("Você é um especialista em análise de notas fiscais para sistema administrativo " ++
   "financeiro agrícola. Analise a seguinte nota fiscal e extraia OBRIGATORIAMENTE " ++
   "todas as informações solicitadas. TEXTO DA NOTA FISCAL:\n").data

/-- Fixed prompt text after the embedded document text (abbreviated). -/
def promptFooter : List Char :=
  ("\nCAMPOS OBRIGATÓRIOS PARA EXTRAÇÃO: fornecedor, faturado, dados da nota fiscal, " ++
   "parcelas. Retorne APENAS o JSON válido, sem texto adicional antes ou depois.").data

/-- Embedding of `_build_extraction_prompt`: the prompt embeds the full source
text verbatim between the fixed instruction texts. -/
def _build_extraction_prompt (pdf_text : List Char) : List Char :=
  promptHeader ++ pdf_text ++ promptFooter

/-- Outcomes of the external collaborators for one document: the text
extraction (`extract_text_from_pdf`, backed by PyPDF2), the model call
(`self.model.generate_content`), and pydantic's reading of the decoded
dictionary's fields when `DadosExtraidosPDFSchema(**data)` is built. -/
structure ExternalCollaborators where
  extract_text : Except (List Char) (List Char)
  generate_content : List Char → Except (List Char) (List Char)
  schema_fields : Json → Except (List Char) LooseData

/-- Message of the `ValueError` raised on a JSON decode failure. -/
def malformedResponseMessage (lc : Nat × Nat) : List Char :=
  "Resposta da IA não está em formato JSON válido: linha ".data ++
  Nat.toDigits 10 lc.1 ++ " coluna ".data ++ Nat.toDigits 10 lc.2

/-- Embedding of `_process_with_gemini` (lines 238-285): model call, empty
response check, JSON parse, validation; every failure propagates as an error
value (the source logs and re-raises). -/
def _process_with_gemini (ext : ExternalCollaborators) (pdf_text : List Char) :
    Except (List Char) DadosExtraidosPDF :=
  match ext.generate_content (_build_extraction_prompt pdf_text) with
  | Except.error e => Except.error e
  | Except.ok response_text =>
    if response_text.isEmpty then Except.error "Resposta vazia da IA Gemini".data
    else
      match _parse_gemini_response response_text with
      | Except.error lc => Except.error (malformedResponseMessage lc)
      | Except.ok parsed =>
        match ext.schema_fields parsed with
        | Except.error e => Except.error e
        | Except.ok loose => _validate_and_structure_data loose

/-- Embedding of `process_pdf` (lines 197-236): run the stages in order inside
the `try`; any stage failure is caught and normalized into a failure result
carrying the error's message and the elapsed time; a success carries the
classified record and the elapsed time. -/
def process_pdf (ext : ExternalCollaborators) (start_time end_time : ℚ) :
    ProcessamentoPDFResponse :=
  let pipeline : Except (List Char) DadosExtraidosPDF :=
    match ext.extract_text with
    | Except.error e => Except.error e
    | Except.ok pdf_text =>
      match _process_with_gemini ext pdf_text with
      | Except.error e => Except.error e
      | Except.ok dados => Except.ok (_apply_automatic_classification dados pdf_text)
  match pipeline with
  | Except.ok dados => ⟨true, some dados, none, end_time - start_time⟩
  | Except.error e => ⟨false, none, some e, end_time - start_time⟩

/-! ## Comparison definitions and sample payloads used by the verification -/

/-- The scorer with the dead `weighted_keywords` computation removed (claim
C10's simplified scorer). -/
def confidenceWithoutWeightedSum
    (texto descricao : List Char) (keywords : List (List Char)) : ℚ :=
  let total_keywords := keywords.length
  let fd := found_keywords_descricao keywords descricao
  let ft := found_keywords_texto keywords descricao texto
  let total_found := fd + ft
  if total_found = 0 then 0
  else
    let base_confidence : ℚ := (total_found : ℚ) / (total_keywords : ℚ)
    let base_confidence := if total_found > 1 then base_confidence * 1.2 else base_confidence
    let base_confidence := if fd > 0 then base_confidence * 1.5 else base_confidence
    let base_confidence :=
      if is_fiscal_category keywords then
        if fd = 0 then base_confidence * 0.1
        else if has_product_description descricao then base_confidence * 0.2
        else base_confidence
      else base_confidence
    min base_confidence 1

/-- The score as a function of nothing but the description-match count, the
remaining-match count, the keyword-list length, and the fiscal and
product-indicator flags. -/
def scoreFromCounts (fd ft n : Nat) (fiscal hasProd : Bool) : ℚ :=
  let total_found := fd + ft
  if total_found = 0 then 0
  else
    let base_confidence : ℚ := (total_found : ℚ) / (n : ℚ)
    let base_confidence := if total_found > 1 then base_confidence * 1.2 else base_confidence
    let base_confidence := if fd > 0 then base_confidence * 1.5 else base_confidence
    let base_confidence :=
      if fiscal then
        if fd = 0 then base_confidence * 0.1
        else if hasProd then base_confidence * 0.2
        else base_confidence
      else base_confidence
    min base_confidence 1

/-- The confidence formula exactly as claim C2 words it: each keyword is
counted once (description first, full text only if absent there); zero on no
match; otherwise `total/len`, times 1.2 for multiple matches, times 1.5 for a
description match, then the fiscal penalty, capped at 1. -/
def specConfidenceFormula
    (texto descricao : List Char) (keywords : List (List Char)) : ℚ :=
  let matched := (keywords.filter
    (fun kw => containsSub descricao kw || containsSub texto kw)).length
  let matchedDesc := (keywords.filter (fun kw => containsSub descricao kw)).length
  if matched = 0 then 0
  else
    min (((matched : ℚ) / (keywords.length : ℚ))
      * (if matched > 1 then 1.2 else 1)
      * (if matchedDesc > 0 then 1.5 else 1)
      * (if is_fiscal_category keywords then
           (if matchedDesc = 0 then 0.1
            else if has_product_description descricao then 0.2 else 1)
         else 1)) 1

/-- The scorer with step 7 (the fiscal-category penalty block) removed; the
value claim C4 compares the penalized score against. -/
def confidenceWithoutFiscalPenalty
    (texto descricao : List Char) (keywords : List (List Char)) : ℚ :=
  let total_keywords := keywords.length
  let fd := found_keywords_descricao keywords descricao
  let ft := found_keywords_texto keywords descricao texto
  let total_found := fd + ft
  if total_found = 0 then 0
  else
    let base_confidence : ℚ := (total_found : ℚ) / (total_keywords : ℚ)
    let base_confidence := if total_found > 1 then base_confidence * 1.2 else base_confidence
    let base_confidence := if fd > 0 then base_confidence * 1.5 else base_confidence
    min base_confidence 1

/-- A validated record whose description matches no keyword, used to exercise
the fallback path. -/
def sampleRecord : DadosExtraidosPDF :=
  { numero_nota_fiscal := none
    data_emissao := ⟨2024, 3, 15⟩
    descricao_produtos := "abc".data
    valor_total := 100
    fornecedor := ⟨"f".data, none, "12.345.678/0001-90".data⟩
    faturado := none
    parcelas := [⟨1, ⟨2024, 3, 15⟩, 100⟩]
    quantidade_parcelas := 1
    classificacoes_despesa := [placeholderClassificacao]
    confianca_geral := 0.85
    observacoes_ia := none }

/-- A decoded payload, valid except that the installment count (5) differs
from the single installment present. -/
def looseMismatchedCount : LooseData :=
  { numero_nota_fiscal := some "123".data
    data_emissao := LooseDateField.str "2024-03-15".data
    descricao_produtos := "abc".data
    valor_total := LooseDecimalField.num 100
    fornecedor := ⟨"Fornecedor X".data, none, "12.345.678/0001-90".data⟩
    faturado := none
    parcelas := [⟨1, LooseDateField.str "2024-04-15".data, LooseDecimalField.num 100⟩]
    quantidade_parcelas := 5
    confianca_geral := 0.85
    observacoes_ia := none }

/-- The record the validator produces from `looseMismatchedCount`. -/
def validatedMismatch : DadosExtraidosPDF :=
  { numero_nota_fiscal := some "123".data
    data_emissao := ⟨2024, 3, 15⟩
    descricao_produtos := "abc".data
    valor_total := 100
    fornecedor := ⟨"Fornecedor X".data, none, "12.345.678/0001-90".data⟩
    faturado := none
    parcelas := [⟨1, ⟨2024, 4, 15⟩, 100⟩]
    quantidade_parcelas := 5
    classificacoes_despesa := [placeholderClassificacao]
    confianca_geral := 0.85
    observacoes_ia := none }

/-- A decoded payload whose date and amounts are strings. -/
def looseRoundtrip : LooseData :=
  { numero_nota_fiscal := some "123".data
    data_emissao := LooseDateField.str "2024-03-15".data
    descricao_produtos := "abc".data
    valor_total := LooseDecimalField.str "1234.50".data
    fornecedor := ⟨"Fornecedor X".data, none, "12.345.678/0001-90".data⟩
    faturado := none
    parcelas := [⟨1, LooseDateField.str "2024-04-15".data, LooseDecimalField.str "1234.50".data⟩]
    quantidade_parcelas := 1
    confianca_geral := 0.85
    observacoes_ia := none }

/-- The record the validator produces from `looseRoundtrip`. -/
def validatedRoundtrip : DadosExtraidosPDF :=
  { numero_nota_fiscal := some "123".data
    data_emissao := ⟨2024, 3, 15⟩
    descricao_produtos := "abc".data
    valor_total := (2469 : ℚ) / 2
    fornecedor := ⟨"Fornecedor X".data, none, "12.345.678/0001-90".data⟩
    faturado := none
    parcelas := [⟨1, ⟨2024, 4, 15⟩, (2469 : ℚ) / 2⟩]
    quantidade_parcelas := 1
    classificacoes_despesa := [placeholderClassificacao]
    confianca_geral := 0.85
    observacoes_ia := none }

/-- Collaborators whose text extraction fails. -/
def failingCollaborators : ExternalCollaborators :=
  ⟨Except.error "Não foi possível extrair texto do PDF".data,
    fun _ => Except.error [], fun _ => Except.error []⟩

/-! ## Supporting lemmas -/

lemma found_counts_sum (kws : List (List Char)) (d t : List Char) :
    found_keywords_descricao kws d + found_keywords_texto kws d t =
      (kws.filter (fun kw => containsSub d kw || containsSub t kw)).length := by
  induction kws with
  | nil => rfl
  | cons kw rest ih =>
    simp only [found_keywords_descricao, found_keywords_texto, List.filter_cons] at *
    by_cases h1 : containsSub d kw <;> by_cases h2 : containsSub t kw <;>
      simp [h1, h2] <;> omega

lemma found_desc_le_length (kws : List (List Char)) (d : List Char) :
    found_keywords_descricao kws d ≤ kws.length :=
  List.length_filter_le _ _

lemma found_sum_le_length (kws : List (List Char)) (d t : List Char) :
    found_keywords_descricao kws d + found_keywords_texto kws d t ≤ kws.length := by
  rw [found_counts_sum]; exact List.length_filter_le _ _

lemma conf_eq_scoreFromCounts (texto descricao : List Char) (kws : List (List Char)) :
    _calculate_classification_confidence texto descricao kws =
      scoreFromCounts (found_keywords_descricao kws descricao)
        (found_keywords_texto kws descricao texto) kws.length
        (is_fiscal_category kws) (has_product_description descricao) := rfl

lemma conf_zero_of_no_matches (texto descricao : List Char) (kws : List (List Char))
    (h1 : found_keywords_descricao kws descricao = 0)
    (h2 : found_keywords_texto kws descricao texto = 0) :
    _calculate_classification_confidence texto descricao kws = 0 := by
  rw [conf_eq_scoreFromCounts, h1, h2]
  norm_num [scoreFromCounts]

lemma min_penalty_le (x : ℚ) (hx0 : 0 ≤ x) (hx : x ≤ 6 / 5) :
    min (x * 0.1) 1 ≤ (0.2 : ℚ) * min x 1 := by
  rcases le_total x 1 with h | h
  · rw [min_eq_left h, min_eq_left (by nlinarith : x * 0.1 ≤ 1)]
    nlinarith
  · rw [min_eq_right h, min_eq_left (by nlinarith : x * 0.1 ≤ 1)]
    nlinarith

lemma confDesc_trans (a b c : ClassificacaoDespesaExtraida) :
    confDesc a b → confDesc b c → confDesc a c := by
  simp only [confDesc, decide_eq_true_eq]
  exact fun h1 h2 => le_trans h2 h1

lemma confDesc_total (a b : ClassificacaoDespesaExtraida) :
    confDesc a b || confDesc b a := by
  simp only [confDesc, Bool.or_eq_true, decide_eq_true_eq]
  exact le_total _ _

lemma genDesc_starts_with_categoria (categoria texto descricao : List Char)
    (kws : List (List Char)) :
    ∃ rest, _generate_specific_description categoria texto descricao kws = categoria ++ rest := by
  unfold _generate_specific_description
  by_cases h : (List.filter (fun kw => containsSub texto kw || containsSub descricao kw) kws).isEmpty
  · exact ⟨" - Classificação automática".data, by simp [h]⟩
  · exact ⟨" - ".data ++ ", ".data.intercalate
      ((List.filter (fun kw => containsSub texto kw || containsSub descricao kw) kws).take 3),
      by simp [h]⟩

lemma validate_looseMismatchedCount :
    _validate_and_structure_data looseMismatchedCount = Except.ok validatedMismatch := by
  have hd : strptimeYMD "2024-03-15".data = some ⟨2024, 3, 15⟩ := by decide
  have hd2 : strptimeYMD "2024-04-15".data = some ⟨2024, 4, 15⟩ := by decide
  have hcheck : pydanticChecks validatedMismatch = true := by
    norm_num [pydanticChecks, validatedMismatch, placeholderClassificacao]
  simp only [_validate_and_structure_data, looseMismatchedCount, coerceDateField,
    coerceParcelas, coerceParcela, coerceDecimalField, hd, hd2]
  split
  · rfl
  · next hfalse => exact absurd hcheck hfalse

lemma decimalOfString_1234_50 :
    decimalOfString ['1', '2', '3', '4', '.', '5', '0'] = some ((2469 : ℚ) / 2) := by
  simp only [decimalOfString]
  rw [if_neg (by decide), if_neg (by decide),
    (by decide : pysplit ['.'] ['1', '2', '3', '4', '.', '5', '0'] =
      [['1', '2', '3', '4'], ['5', '0']])]
  dsimp only
  rw [if_pos (by decide)]
  norm_num [(by decide : digitsToNat ['1', '2', '3', '4'] = 1234),
    (by decide : digitsToNat ['5', '0'] = 50)]

lemma strptime_2024_03_15 :
    strptimeYMD ['2', '0', '2', '4', '-', '0', '3', '-', '1', '5'] =
      some ⟨2024, 3, 15⟩ := by decide

lemma strptime_2024_04_15 :
    strptimeYMD ['2', '0', '2', '4', '-', '0', '4', '-', '1', '5'] =
      some ⟨2024, 4, 15⟩ := by decide

lemma validate_looseRoundtrip :
    _validate_and_structure_data looseRoundtrip = Except.ok validatedRoundtrip := by
  have hcheck : pydanticChecks validatedRoundtrip = true := by
    norm_num [pydanticChecks, validatedRoundtrip, placeholderClassificacao]
  simp only [_validate_and_structure_data, looseRoundtrip, coerceDateField,
    coerceParcelas, coerceParcela, coerceDecimalField, strptime_2024_03_15,
    strptime_2024_04_15, decimalOfString_1234_50]
  split
  · rfl
  · next hfalse => exact absurd hcheck hfalse

lemma coerceParcelas_sound : ∀ (ps : List LooseParcela) (qs : List ParcelaExtraida),
    coerceParcelas ps = some qs →
    qs.length = ps.length ∧
    ∀ i (hi : i < ps.length) (hq : i < qs.length),
      coerceParcela (ps.get ⟨i, hi⟩) = some (qs.get ⟨i, hq⟩) := by
  intro ps
  induction ps with
  | nil =>
    intro qs h
    simp only [coerceParcelas] at h
    injection h with h'
    subst h'
    exact ⟨rfl, fun i hi _ => absurd hi (by simp)⟩
  | cons p ps ih =>
    intro qs h
    simp only [coerceParcelas] at h
    split at h
    · next q qs' hq hqs =>
      injection h with h'
      subst h'
      obtain ⟨hlen, hget⟩ := ih qs' hqs
      refine ⟨by simp [hlen], ?_⟩
      intro i hi hq2
      cases i with
      | zero => simpa using hq
      | succ j => simpa using hget j (by simpa using hi) (by simpa using hq2)
    · exact Option.noConfusion h

lemma firstOccIdx_some_isPrefixOf : ∀ (s : List Char) (needle : List Char) (i : Nat),
    firstOccIdx needle s = some i → needle.isPrefixOf (s.drop i) = true := by
  intro s
  induction s with
  | nil =>
    intro needle i h
    simp only [firstOccIdx] at h
    split at h
    · next hemp =>
      injection h with h'
      subst h'
      have hnil : needle = [] := by simpa [List.isEmpty_iff] using hemp
      simp [hnil, List.isPrefixOf]
    · exact Option.noConfusion h
  | cons c t ih =>
    intro needle i h
    simp only [firstOccIdx] at h
    split at h
    · injection h with h'
      subst h'
      assumption
    · rcases hrec : firstOccIdx needle t with - | j
      · rw [hrec] at h
        exact Option.noConfusion h
      · rw [hrec] at h
        injection h with h'
        subst h'
        simpa using ih needle j hrec

lemma firstOccIdx_cons_ne (c : Char) (t : List Char) (needle : List Char) (n0 : Char)
    (hh : needle.head? = some n0) (hc : n0 ≠ c) :
    firstOccIdx needle (c :: t) = (firstOccIdx needle t).map (· + 1) := by
  cases needle with
  | nil => exact Option.noConfusion hh
  | cons n ns =>
    injection hh with hh'
    subst hh'
    simp only [firstOccIdx]
    rw [if_neg]
    simp only [List.isPrefixOf, Bool.and_eq_true, beq_iff_eq, not_and]
    exact fun hnc => absurd hnc.symm hc.symm

lemma firstOccIdx_append_of_no_head (A rest needle : List Char) (n0 : Char)
    (hh : needle.head? = some n0) (hA : ∀ c ∈ A, c ≠ n0) :
    firstOccIdx needle (A ++ rest) = (firstOccIdx needle rest).map (· + A.length) := by
  induction A with
  | nil => simp
  | cons c A ih =>
    have hc : n0 ≠ c := fun h => hA c (by simp) h.symm
    rw [List.cons_append, firstOccIdx_cons_ne c (A ++ rest) needle n0 hh hc,
      ih (fun x hx => hA x (by simp [hx]))]
    cases firstOccIdx needle rest with
    | none => rfl
    | some j =>
      simp only [Option.map_some', List.length_cons, Option.some.injEq]
      omega

lemma firstOccIdx_self_append (needle rest : List Char) :
    firstOccIdx needle (needle ++ rest) = some 0 := by
  cases needle with
  | nil => cases rest <;> simp [firstOccIdx]
  | cons n ns =>
    have hp : (n :: ns).isPrefixOf ((n :: ns) ++ rest) = true := by
      rw [ List.isPrefixOf_iff_prefix]
      exact ⟨rest, rfl⟩
    rw [List.cons_append] at hp ⊢
    simp [firstOccIdx, hp]

lemma firstOccIdx_none_of_no_head (x needle : List Char) (n0 : Char)
    (hh : needle.head? = some n0) (hx : ∀ c ∈ x, c ≠ n0) :
    firstOccIdx needle x = none := by
  induction x with
  | nil =>
    cases needle with
    | nil => exact Option.noConfusion hh
    | cons n ns => simp [firstOccIdx]
  | cons c t ih =>
    have hc : n0 ≠ c := fun h => hx c (by simp) h.symm
    rw [firstOccIdx_cons_ne c t needle n0 hh hc, ih (fun y hy => hx y (by simp [hy]))]
    rfl

lemma firstOccIdx_some_bound (sep s : List Char) (i : Nat) (hne : sep ≠ [])
    (h : firstOccIdx sep s = some i) : i + sep.length ≤ s.length := by
  have hp := firstOccIdx_some_isPrefixOf s sep i h
  rw [ List.isPrefixOf_iff_prefix] at hp
  have h1 : sep.length ≤ s.length - i := by simpa using hp.length_le
  have h2 : 0 < sep.length := List.length_pos.2 hne
  omega

lemma pysplitAux_fuel_irrel (sep : List Char) (hne : sep ≠ []) :
    ∀ f1 f2 s, s.length < f1 → s.length < f2 → pysplitAux f1 sep s = pysplitAux f2 sep s := by
  intro f1
  induction f1 with
  | zero => exact fun f2 s h1 _ => absurd h1 (Nat.not_lt_zero _)
  | succ a ih =>
    intro f2 s h1 h2
    cases f2 with
    | zero => exact absurd h2 (Nat.not_lt_zero _)
    | succ b =>
      simp only [pysplitAux]
      cases hocc : firstOccIdx sep s with
      | none => rfl
      | some i =>
        have hb := firstOccIdx_some_bound sep s i hne hocc
        have hsep : 0 < sep.length := List.length_pos.2 hne
        have hlen : (s.drop (i + sep.length)).length < s.length := by
          rw [List.length_drop]
          omega
        dsimp only
        congr 1
        exact ih b (s.drop (i + sep.length)) (by omega) (by omega)

lemma pysplit_cons (sep s : List Char) (i : Nat) (hne : sep ≠ [])
    (h : firstOccIdx sep s = some i) :
    pysplit sep s = s.take i :: pysplit sep (s.drop (i + sep.length)) := by
  have hb := firstOccIdx_some_bound sep s i hne h
  have hsep : 0 < sep.length := List.length_pos.2 hne
  have hlt : (s.drop (i + sep.length)).length < s.length := by
    rw [List.length_drop]
    omega
  simp only [pysplit, pysplitAux, h]
  congr 1
  exact pysplitAux_fuel_irrel sep hne s.length ((s.drop (i + sep.length)).length + 1)
    (s.drop (i + sep.length)) hlt (by omega)

lemma pysplit_of_none (sep s : List Char) (h : firstOccIdx sep s = none) :
    pysplit sep s = [s] := by
  simp only [pysplit, pysplitAux, h]

lemma containsSub_of_occurrence : ∀ (hay : List Char) (needle : List Char) (i : Nat),
    needle.isPrefixOf (hay.drop i) = true → needle ≠ [] → containsSub hay needle = true := by
  intro hay
  induction hay with
  | nil =>
    intro needle i h hne
    rw [List.drop_nil] at h
    rw [ List.isPrefixOf_iff_prefix] at h
    exact absurd ( List.prefix_nil.1 h) hne
  | cons c t ih =>
    intro needle i h hne
    cases i with
    | zero =>
      rw [List.drop_zero] at h
      simp [containsSub, firstOccIdx, h]
    | succ j =>
      have := ih needle j (by simpa using h) hne
      simp only [containsSub, firstOccIdx] at this ⊢
      split
      · simp
      · simpa using this

lemma pystrip_eq_rdropWhile (s : List Char) :
    pystrip s = List.rdropWhile isPyWhitespace (List.dropWhile isPyWhitespace s) := rfl

lemma pystrip_idem (s : List Char) : pystrip (pystrip s) = pystrip s := by
  rw [pystrip_eq_rdropWhile, pystrip_eq_rdropWhile]
  have h1 : List.dropWhile isPyWhitespace
      (List.rdropWhile isPyWhitespace (List.dropWhile isPyWhitespace s)) =
      List.rdropWhile isPyWhitespace (List.dropWhile isPyWhitespace s) := by
    rw [List.dropWhile_eq_self_iff]
    intro hl
    have hpre := List.rdropWhile_prefix isPyWhitespace (List.dropWhile isPyWhitespace s)
    have hlt : 0 < (List.dropWhile isPyWhitespace s).length :=
      lt_of_lt_of_le hl hpre.length_le
    have hg : (List.rdropWhile isPyWhitespace (List.dropWhile isPyWhitespace s)).get ⟨0, hl⟩ =
        (List.dropWhile isPyWhitespace s).get ⟨0, hlt⟩ := by
      simpa [List.get_eq_getElem] using hpre.getElem (n := 0) hl
    rw [hg]
    exact List.dropWhile_get_zero_not isPyWhitespace s hlt
  rw [h1, List.rdropWhile_idempotent]

lemma containsSub_fence_of_fenceJson (s : List Char)
    (h : containsSub s fenceJsonMarker = true) : containsSub s fenceMarker = true := by
  simp only [containsSub] at h
  obtain ⟨i, hi⟩ := Option.isSome_iff_exists.1 h
  have hp := firstOccIdx_some_isPrefixOf s fenceJsonMarker i hi
  rw [ List.isPrefixOf_iff_prefix] at hp
  have hGF : fenceMarker <+: fenceJsonMarker := by decide
  exact containsSub_of_occurrence s fenceMarker i
    (by rw [ List.isPrefixOf_iff_prefix]; exact hGF.trans hp) (by decide)

lemma fenceJson_occ_in_BGC (B C : List Char) (hB : ∀ c ∈ B, c ≠ '`') (hC : ∀ c ∈ C, c ≠ '`')
    (k : Nat) (h : firstOccIdx fenceJsonMarker (B ++ fenceMarker ++ C) = some k) :
    k = B.length := by
  have hp := firstOccIdx_some_isPrefixOf _ _ _ h
  rw [ List.isPrefixOf_iff_prefix] at hp
  obtain ⟨tail, htail⟩ := hp
  have hchar : ∀ j, j < 3 → (B ++ fenceMarker ++ C)[k + j]? = some '`' := by
    intro j hj
    have hfj : ((B ++ fenceMarker ++ C).drop k)[j]? = fenceJsonMarker[j]? := by
      rw [← htail, List.getElem?_append_left (by interval_cases j <;> decide)]
    rw [List.getElem?_drop] at hfj
    rw [hfj]
    interval_cases j <;> decide
  rcases Nat.lt_trichotomy k B.length with hlt | heq | hgt
  · exfalso
    have h0 := hchar 0 (by omega)
    rw [Nat.add_zero, List.append_assoc,
      List.getElem?_append_left (by omega : k < B.length)] at h0
    exact hB '`' (List.getElem?_mem h0) rfl
  · exact heq
  · exfalso
    have hj : ∃ j, j < 3 ∧ B.length + 3 ≤ k + j := by
      rcases Nat.le_total k (B.length + 3) with h' | h'
      · exact ⟨B.length + 3 - k, by omega, by omega⟩
      · exact ⟨0, by omega, by omega⟩
    obtain ⟨j, hj3, hjge⟩ := hj
    have h0 := hchar j hj3
    have hfm : fenceMarker.length = 3 := by decide
    rw [List.getElem?_append_right
      (by rw [List.length_append, hfm]; omega : (B ++ fenceMarker).length ≤ k + j)] at h0
    exact hC '`' (List.getElem?_mem h0) rfl

lemma geminiExtract_tagged (A B C : List Char)
    (hA : ∀ c ∈ A, c ≠ '`') (hB : ∀ c ∈ B, c ≠ '`') (hC : ∀ c ∈ C, c ≠ '`') :
    pyindex (pysplit fenceMarker
      (pyindex (pysplit fenceJsonMarker (A ++ fenceJsonMarker ++ B ++ fenceMarker ++ C)) 1))
      0 = B := by
  have hFhead : fenceJsonMarker.head? = some '`' := by decide
  have hGhead : fenceMarker.head? = some '`' := by decide
  have hFne : fenceJsonMarker ≠ [] := by decide
  have hGne : fenceMarker ≠ [] := by decide
  have hassoc : A ++ fenceJsonMarker ++ B ++ fenceMarker ++ C =
      A ++ (fenceJsonMarker ++ (B ++ fenceMarker ++ C)) := by
    simp [List.append_assoc]
  have hoccF : firstOccIdx fenceJsonMarker (A ++ fenceJsonMarker ++ B ++ fenceMarker ++ C) =
      some A.length := by
    rw [hassoc, firstOccIdx_append_of_no_head A _ _ '`' hFhead hA, firstOccIdx_self_append]
    simp
  have hdrop : (A ++ fenceJsonMarker ++ B ++ fenceMarker ++ C).drop
      (A.length + fenceJsonMarker.length) = B ++ fenceMarker ++ C := by
    rw [show A ++ fenceJsonMarker ++ B ++ fenceMarker ++ C =
        (A ++ fenceJsonMarker) ++ (B ++ fenceMarker ++ C) from by simp [List.append_assoc],
      List.drop_left' (by rw [List.length_append])]
  rw [pysplit_cons _ _ _ hFne hoccF, hdrop]
  show pyindex (pysplit fenceMarker
    (pyindex (pysplit fenceJsonMarker (B ++ fenceMarker ++ C)) 0)) 0 = B
  have hoccG : firstOccIdx fenceMarker (B ++ fenceMarker ++ C) = some B.length := by
    rw [show B ++ fenceMarker ++ C = B ++ (fenceMarker ++ C) from List.append_assoc .. ,
      firstOccIdx_append_of_no_head B _ _ '`' hGhead hB, firstOccIdx_self_append]
    simp
  have htakeB : (B ++ fenceMarker ++ C).take B.length = B := by
    rw [show B ++ fenceMarker ++ C = B ++ (fenceMarker ++ C) from List.append_assoc .. ]
    exact List.take_left B _
  rcases hocc2 : firstOccIdx fenceJsonMarker (B ++ fenceMarker ++ C) with - | k
  · rw [pysplit_of_none _ _ hocc2]
    show pyindex (pysplit fenceMarker (B ++ fenceMarker ++ C)) 0 = B
    rw [pysplit_cons _ _ _ hGne hoccG]
    exact htakeB
  · have hk := fenceJson_occ_in_BGC B C hB hC k hocc2
    subst hk
    rw [pysplit_cons _ _ _ hFne hocc2]
    show pyindex (pysplit fenceMarker ((B ++ fenceMarker ++ C).take B.length)) 0 = B
    rw [htakeB, pysplit_of_none _ _ (firstOccIdx_none_of_no_head B _ '`' hGhead hB)]
    rfl

lemma geminiExtract_untagged (A B C : List Char)
    (hA : ∀ c ∈ A, c ≠ '`') (hB : ∀ c ∈ B, c ≠ '`') :
    pyindex (pysplit fenceMarker
      (pyindex (pysplit fenceMarker (A ++ fenceMarker ++ B ++ fenceMarker ++ C)) 1)) 0 = B := by
  have hGhead : fenceMarker.head? = some '`' := by decide
  have hGne : fenceMarker ≠ [] := by decide
  have hoccG1 : firstOccIdx fenceMarker (A ++ fenceMarker ++ B ++ fenceMarker ++ C) =
      some A.length := by
    rw [show A ++ fenceMarker ++ B ++ fenceMarker ++ C =
        A ++ (fenceMarker ++ (B ++ fenceMarker ++ C)) from by simp [List.append_assoc],
      firstOccIdx_append_of_no_head A _ _ '`' hGhead hA, firstOccIdx_self_append]
    simp
  have hdrop : (A ++ fenceMarker ++ B ++ fenceMarker ++ C).drop
      (A.length + fenceMarker.length) = B ++ fenceMarker ++ C := by
    rw [show A ++ fenceMarker ++ B ++ fenceMarker ++ C =
        (A ++ fenceMarker) ++ (B ++ fenceMarker ++ C) from by simp [List.append_assoc],
      List.drop_left' (by rw [List.length_append])]
  rw [pysplit_cons _ _ _ hGne hoccG1, hdrop]
  show pyindex (pysplit fenceMarker
    (pyindex (pysplit fenceMarker (B ++ fenceMarker ++ C)) 0)) 0 = B
  have hoccG : firstOccIdx fenceMarker (B ++ fenceMarker ++ C) = some B.length := by
    rw [show B ++ fenceMarker ++ C = B ++ (fenceMarker ++ C) from List.append_assoc .. ,
      firstOccIdx_append_of_no_head B _ _ '`' hGhead hB, firstOccIdx_self_append]
    simp
  have htakeB : (B ++ fenceMarker ++ C).take B.length = B := by
    rw [show B ++ fenceMarker ++ C = B ++ (fenceMarker ++ C) from List.append_assoc .. ]
    exact List.take_left B _
  rw [pysplit_cons _ _ _ hGne hoccG]
  show pyindex (pysplit fenceMarker ((B ++ fenceMarker ++ C).take B.length)) 0 = B
  rw [htakeB, pysplit_of_none _ _ (firstOccIdx_none_of_no_head B _ '`' hGhead hB)]
  rfl

lemma containsSub_append_marker (A rest marker : List Char) (hhead : marker.head? = some '`')
    (hA : ∀ c ∈ A, c ≠ '`') :
    containsSub (A ++ (marker ++ rest)) marker = true := by
  simp only [containsSub, firstOccIdx_append_of_no_head A _ _ '`' hhead hA,
    firstOccIdx_self_append]
  rfl

/-! ## Claim theorems -/

/-- Claim C10: the 3x-weighted keyword sum has no effect on the scorer's result — the score equals that of the simplified scorer omitting the weighted-sum computation, and depends only on the two match counts, the keyword-list length, and the fiscal/product-indicator flags. -/
theorem weighted_sum_is_dead_code (texto descricao : List Char) (keywords : List (List Char)) :
    _calculate_classification_confidence texto descricao keywords =
      confidenceWithoutWeightedSum texto descricao keywords ∧
    _calculate_classification_confidence texto descricao keywords =
      scoreFromCounts (found_keywords_descricao keywords descricao)
        (found_keywords_texto keywords descricao texto) keywords.length
        (is_fiscal_category keywords) (has_product_description descricao) :=
  ⟨rfl, rfl⟩

/-- Claim C2: for every full text, description and non-empty keyword list, the scorer returns exactly the specification's formula — 0 when no keyword matches, else total/len boosted by 1.2 (multiple matches) and 1.5 (description match), fiscally penalized and capped at 1.0, with each keyword tested against the description first and counted against the full text only if absent there (never double-counted). -/
theorem scorer_formula_correct (texto descricao : List Char) (keywords : List (List Char))
    (hne : keywords ≠ []) :
    _calculate_classification_confidence texto descricao keywords =
      specConfidenceFormula texto descricao keywords := by
  have hsum := found_counts_sum keywords descricao texto
  simp only [_calculate_classification_confidence, specConfidenceFormula, ← hsum,
    found_keywords_descricao]
  split_ifs <;> first | rfl | ring_nf

/-- Claim C4: for a fiscal category, when the description carries product-indicator tokens, the full text carries fiscal terms, and the description matches none of the category's keywords, the returned score is at most 0.2 times the score the same inputs receive without the penalty step. -/
theorem fiscal_penalty_suppression (texto descricao : List Char) (keywords : List (List Char))
    (hfiscal : is_fiscal_category keywords = true)
    (hprod : has_product_description descricao = true)
    (hdesc : found_keywords_descricao keywords descricao = 0)
    (htext : ∃ kw ∈ fiscal_keywords, containsSub texto kw = true) :
    _calculate_classification_confidence texto descricao keywords ≤
      (0.2 : ℚ) * confidenceWithoutFiscalPenalty texto descricao keywords := by
  have hle : found_keywords_texto keywords descricao texto ≤ keywords.length := by
    have := found_sum_le_length keywords descricao texto
    omega
  simp only [_calculate_classification_confidence, confidenceWithoutFiscalPenalty,
    hfiscal, hdesc, if_true, Nat.zero_add, lt_irrefl, if_false]
  by_cases hzero : found_keywords_texto keywords descricao texto = 0
  · simp [hzero]
  · have hn : (0 : ℚ) < (keywords.length : ℚ) := by
      have : 1 ≤ keywords.length := by omega
      exact_mod_cast Nat.lt_of_lt_of_le Nat.zero_lt_one this
    have hft : (0 : ℚ) ≤ (found_keywords_texto keywords descricao texto : ℚ) := by positivity
    have hdiv : (found_keywords_texto keywords descricao texto : ℚ) / (keywords.length : ℚ) ≤ 1 := by
      rw [div_le_one hn]
      exact_mod_cast hle
    have hdiv0 : (0 : ℚ) ≤ (found_keywords_texto keywords descricao texto : ℚ) / (keywords.length : ℚ) :=
      div_nonneg hft (le_of_lt hn)
    simp only [hzero, if_false]
    split_ifs with hgt
    · exact min_penalty_le _ (by positivity) (by nlinarith)
    · exact min_penalty_le _ hdiv0 (by nlinarith)

/-- Claim C7 (amended): the run whose matched keyword sits in the description scores strictly higher than the run where it sits only in the full text, provided no matched keyword occurs in the second run's description and either the category is fiscal or the second run's pre-cap score is below 1. -/
theorem description_match_strictly_better (texto1 descricao1 texto2 descricao2 : List Char)
    (kws : List (List Char)) (t : Nat)
    (h1d : found_keywords_descricao kws descricao1 = 1)
    (h1t : found_keywords_texto kws descricao1 texto1 = t)
    (h2d : found_keywords_descricao kws descricao2 = 0)
    (h2t : found_keywords_texto kws descricao2 texto2 = t + 1)
    (hside : is_fiscal_category kws = true ∨
      ((t + 1 : ℚ) / (kws.length : ℚ) * (if 1 < t + 1 then 1.2 else 1) < 1)) :
    _calculate_classification_confidence texto2 descricao2 kws <
      _calculate_classification_confidence texto1 descricao1 kws := by
  have hle : 1 + t ≤ kws.length := by
    have := found_sum_le_length kws descricao1 texto1
    omega
  have hn : (0 : ℚ) < (kws.length : ℚ) := by
    exact_mod_cast Nat.lt_of_lt_of_le Nat.zero_lt_one (by omega : 1 ≤ kws.length)
  have hd0 : (0 : ℚ) < ((t : ℚ) + 1) / (kws.length : ℚ) := by positivity
  have hd1 : ((t : ℚ) + 1) / (kws.length : ℚ) ≤ 1 := by
    rw [div_le_one hn]
    exact_mod_cast (by omega : t + 1 ≤ kws.length)
  have hiff : (1 < t + 1) ↔ (0 < t) := by omega
  simp only [hiff] at hside
  norm_num at hside
  simp only [_calculate_classification_confidence, h1d, h1t, h2d, h2t]
  norm_num
  simp only [add_comm 1 ((t : ℚ))]
  by_cases hf : is_fiscal_category kws = true
  · by_cases ht : 0 < t <;> by_cases hp : has_product_description descricao1 = true <;>
      simp only [hf, ht, hp, Bool.not_eq_true, eq_self_iff_true, if_true, if_false,
        Bool.false_eq_true] <;>
      refine ⟨Or.inl ?_, ?_⟩ <;> nlinarith [hd0, hd1]
  · rcases hside with hside | hside
    · exact absurd hside hf
    · by_cases ht : 0 < t <;>
        simp only [hf, ht, Bool.not_eq_true, eq_self_iff_true, if_true, if_false,
          Bool.false_eq_true] at hside ⊢ <;>
        refine ⟨Or.inl ?_, ?_⟩ <;> nlinarith [hd0, hd1]

/-- Concrete instance of the scorer formula equivalence on a two-keyword list. -/
theorem scorer_formula_correct_witness :
    ([['a'], ['b']] : List (List Char)) ≠ [] ∧
    _calculate_classification_confidence "ab".data "a".data [['a'], ['b']] =
      specConfidenceFormula "ab".data "a".data [['a'], ['b']] :=
  ⟨by decide, scorer_formula_correct "ab".data "a".data [['a'], ['b']] (by decide)⟩

/-- Concrete instance of the fiscal suppression bound on a one-keyword fiscal category. -/
theorem fiscal_penalty_suppression_witness :
    is_fiscal_category ["imposto".data] = true ∧
    has_product_description "kit".data = true ∧
    found_keywords_descricao ["imposto".data] "kit".data = 0 ∧
    (∃ kw ∈ fiscal_keywords, containsSub "imposto".data kw = true) ∧
    _calculate_classification_confidence "imposto".data "kit".data ["imposto".data] ≤
      (0.2 : ℚ) * confidenceWithoutFiscalPenalty "imposto".data "kit".data ["imposto".data] :=
  ⟨by decide, by decide, by decide, by decide,
    fiscal_penalty_suppression "imposto".data "kit".data ["imposto".data]
      (by decide) (by decide) (by decide) (by decide)⟩

/-- Counterexample to claim C7 as stated: with keywords [a, b], moving keyword b from the description (first run) to the full text only (second run) while keyword a stays matched in both descriptions keeps every other match count equal, yet the two confidences are equal — the first does not strictly exceed the second. -/
theorem description_shift_not_strict :
    found_keywords_descricao [['a'], ['b']] "ab".data = 2 ∧
    found_keywords_texto [['a'], ['b']] "ab".data "ab".data = 0 ∧
    found_keywords_descricao [['a'], ['b']] "a".data = 1 ∧
    found_keywords_texto [['a'], ['b']] "a".data "ab".data = 1 ∧
    ¬(_calculate_classification_confidence "ab".data "a".data [['a'], ['b']] <
      _calculate_classification_confidence "ab".data "ab".data [['a'], ['b']]) := by
  refine ⟨by decide, by decide, by decide, by decide, ?_⟩
  rw [conf_eq_scoreFromCounts, conf_eq_scoreFromCounts,
    (by decide : found_keywords_descricao [['a'], ['b']] "a".data = 1),
    (by decide : found_keywords_texto [['a'], ['b']] "a".data "ab".data = 1),
    (by decide : found_keywords_descricao [['a'], ['b']] "ab".data = 2),
    (by decide : found_keywords_texto [['a'], ['b']] "ab".data "ab".data = 0),
    (by decide : is_fiscal_category [['a'], ['b']] = false),
    (by decide : has_product_description "a".data = false),
    (by decide : has_product_description "ab".data = false)]
  norm_num [scoreFromCounts, min_def]

/-- Concrete instance of the amended strict-inequality claim at two keywords. -/
theorem description_match_strictly_better_witness :
    found_keywords_descricao [['a'], ['b']] "a".data = 1 ∧
    found_keywords_texto [['a'], ['b']] "a".data "z".data = 0 ∧
    found_keywords_descricao [['a'], ['b']] "z".data = 0 ∧
    found_keywords_texto [['a'], ['b']] "z".data "a".data = 0 + 1 ∧
    _calculate_classification_confidence "a".data "z".data [['a'], ['b']] <
      _calculate_classification_confidence "z".data "a".data [['a'], ['b']] :=
  ⟨by decide, by decide, by decide, by decide,
    description_match_strictly_better "z".data "a".data "a".data "z".data [['a'], ['b']] 0
      (by decide) (by decide) (by decide) (by decide)
      (Or.inr (by norm_num))⟩

/-- Claim C1: for every validated record and full text the classifier returns a non-empty classification list of at most 3 entries sorted in descending confidence, and when no category scores above the 0.15 threshold the list is exactly the single ADMINISTRATIVAS fallback with confidence 0.2. -/
theorem classifier_output_invariants (dados : DadosExtraidosPDF) (texto : List Char) :
    (_apply_automatic_classification dados texto).classificacoes_despesa ≠ [] ∧
    (_apply_automatic_classification dados texto).classificacoes_despesa.length ≤ 3 ∧
    List.Pairwise (fun a b => b.confianca ≤ a.confianca)
      (_apply_automatic_classification dados texto).classificacoes_despesa ∧
    ((∀ rule ∈ classification_rules,
        _calculate_classification_confidence (pylower texto) (pylower dados.descricao_produtos)
          rule.keywords ≤ 0.15) →
      (_apply_automatic_classification dados texto).classificacoes_despesa =
        [fallbackClassificacao]) := by
  have hout : (_apply_automatic_classification dados texto).classificacoes_despesa =
      ((if (classificacoesLoop (pylower texto) (pylower dados.descricao_produtos)).isEmpty
          then [fallbackClassificacao]
          else classificacoesLoop (pylower texto)
            (pylower dados.descricao_produtos)).mergeSort confDesc).take 3 := rfl
  set cs := if (classificacoesLoop (pylower texto) (pylower dados.descricao_produtos)).isEmpty
      then [fallbackClassificacao]
      else classificacoesLoop (pylower texto) (pylower dados.descricao_produtos) with hcs
  have hcs_ne : cs ≠ [] := by
    rw [hcs]
    split
    · simp
    · next h => simpa [List.isEmpty_iff] using h
  refine ⟨?_, ?_, ?_, ?_⟩
  · rw [hout]
    have hlen : ((cs.mergeSort confDesc).take 3).length = min 3 cs.length := by
      simp [List.length_take]
    intro hnil
    rw [hnil] at hlen
    simp only [List.length_nil] at hlen
    exact hcs_ne (List.eq_nil_of_length_eq_zero (by omega))
  · rw [hout]
    simp [List.length_take]
  · rw [hout]
    have hsorted : (cs.mergeSort confDesc).Pairwise (fun a b => confDesc a b) :=
      List.sorted_mergeSort confDesc_trans confDesc_total cs
    have htake : ((cs.mergeSort confDesc).take 3).Pairwise (fun a b => confDesc a b) :=
      hsorted.sublist (List.take_sublist 3 _)
    exact htake.imp (by simp only [confDesc, decide_eq_true_eq]; exact fun h => h)
  · intro h
    have hloop : classificacoesLoop (pylower texto) (pylower dados.descricao_produtos) = [] := by
      apply List.filterMap_eq_nil_iff.2
      intro rule hr
      rw [if_neg (not_lt.2 (h rule hr))]
    rw [hout, hcs, hloop]
    simp

/-- Concrete fallback-path instance of the classifier invariants. -/
theorem classifier_output_invariants_witness :
    (∀ rule ∈ classification_rules,
        _calculate_classification_confidence (pylower "xq".data)
          (pylower sampleRecord.descricao_produtos) rule.keywords ≤ 0.15) ∧
    (_apply_automatic_classification sampleRecord "xq".data).classificacoes_despesa =
      [fallbackClassificacao] := by
  have hyp : ∀ rule ∈ classification_rules,
      _calculate_classification_confidence (pylower "xq".data)
        (pylower sampleRecord.descricao_produtos) rule.keywords ≤ 0.15 := by
    intro rule hr
    fin_cases hr <;>
      rw [conf_zero_of_no_matches _ _ _ (by decide) (by decide)] <;> norm_num
  exact ⟨hyp, (classifier_output_invariants sampleRecord "xq".data).2.2.2 hyp⟩

/-- Claim C9: the validator writes the fixed placeholder classification into every record it accepts, the classifier unconditionally replaces the whole classification list with its computed list, and the placeholder never appears in the classifier's output. -/
theorem placeholder_never_surfaces :
    (∀ d r, _validate_and_structure_data d = Except.ok r →
        r.classificacoes_despesa = [placeholderClassificacao]) ∧
    (∀ dados texto,
        (_apply_automatic_classification dados texto).classificacoes_despesa =
          computedClassificacoes dados texto) ∧
    (∀ dados texto,
        placeholderClassificacao ∉
          (_apply_automatic_classification dados texto).classificacoes_despesa) := by
  refine ⟨?_, fun _ _ => rfl, ?_⟩
  · intro d r h
    simp only [_validate_and_structure_data] at h
    split at h
    · split at h
      · injection h with h'
        subst h'
        rfl
      · exact absurd h (by simp)
    · exact absurd h (by simp)
  · intro dados texto hmem
    have hmem2 : placeholderClassificacao ∈
        ((if (classificacoesLoop (pylower texto) (pylower dados.descricao_produtos)).isEmpty
            then [fallbackClassificacao]
            else classificacoesLoop (pylower texto)
              (pylower dados.descricao_produtos)).mergeSort confDesc) :=
      List.mem_of_mem_take hmem
    rw [List.mem_mergeSort] at hmem2
    split at hmem2
    · simp only [List.mem_singleton] at hmem2
      exact absurd (congrArg ClassificacaoDespesaExtraida.descricao hmem2) (by decide)
    · rw [classificacoesLoop, List.mem_filterMap] at hmem2
      obtain ⟨rule, hr, hf⟩ := hmem2
      dsimp only at hf
      split at hf
      · injection hf with hf'
        have hdesc := congrArg ClassificacaoDespesaExtraida.descricao hf'
        dsimp only at hdesc
        obtain ⟨rest, hrest⟩ := genDesc_starts_with_categoria rule.categoria (pylower texto)
          (pylower dados.descricao_produtos) rule.keywords
        have hhead : rule.categoria.headD 'Ó' ≠ 'Ó' := by fin_cases hr <;> decide
        rcases hcat : rule.categoria with - | ⟨c, cs⟩
        · rw [hcat] at hhead
          simp at hhead
        · rw [hrest, hcat] at hdesc
          have hO : placeholderClassificacao.descricao =
              'Ó' :: "leo diesel - Combustível".data := by decide
          rw [hO, List.cons_append] at hdesc
          injection hdesc with hc htail
          rw [hcat] at hhead
          simp only [List.headD_cons] at hhead
          exact hhead hc
      · exact Option.noConfusion hf

/-- Claim C8: the validator does not relate the installment-count field to the length of the installment list — a payload declaring 5 installments while carrying 1 validates successfully and the mismatched values are preserved. -/
theorem installment_count_not_enforced :
    _validate_and_structure_data looseMismatchedCount = Except.ok validatedMismatch ∧
    looseMismatchedCount.quantidade_parcelas = 5 ∧
    looseMismatchedCount.parcelas.length = 1 ∧
    validatedMismatch.quantidade_parcelas = 5 ∧
    validatedMismatch.parcelas.length = 1 :=
  ⟨validate_looseMismatchedCount, rfl, rfl, rfl, rfl⟩

/-- Concrete instance showing the placeholder in the validated record and its absence from the classifier output. -/
theorem placeholder_never_surfaces_witness :
    validatedMismatch.classificacoes_despesa = [placeholderClassificacao] ∧
    placeholderClassificacao ∉
      (_apply_automatic_classification sampleRecord "xq".data).classificacoes_despesa :=
  ⟨placeholder_never_surfaces.1 looseMismatchedCount validatedMismatch
      validate_looseMismatchedCount,
    placeholder_never_surfaces.2.2 sampleRecord "xq".data⟩

/-- Claim C6: feeding the date string 2024-03-15 through the validator yields a date re-serializing to 2024-03-15; feeding the amount string 1234.50 yields the exact rational 2469/2 with no drift; and each installment of the list is coerced independently by the same rules. -/
theorem validator_roundtrip_normalization :
    (∀ d r, _validate_and_structure_data d = Except.ok r →
        d.data_emissao = LooseDateField.str "2024-03-15".data →
        dateIsoformat r.data_emissao = "2024-03-15".data) ∧
    (∀ d r, _validate_and_structure_data d = Except.ok r →
        d.valor_total = LooseDecimalField.str "1234.50".data →
        r.valor_total = (2469 : ℚ) / 2) ∧
    (∀ d r, _validate_and_structure_data d = Except.ok r →
        r.parcelas.length = d.parcelas.length ∧
        ∀ i (hi : i < d.parcelas.length) (hq : i < r.parcelas.length),
          coerceParcela (d.parcelas.get ⟨i, hi⟩) = some (r.parcelas.get ⟨i, hq⟩)) := by
  refine ⟨?_, ?_, ?_⟩
  · intro d r h hde
    rw [_validate_and_structure_data, hde] at h
    simp only [coerceDateField, strptime_2024_03_15] at h
    split at h
    · next heq1 _ _ =>
      split at h
      · injection h with h'
        subst h'
        injection heq1 with heq1'
        rw [← heq1']
        show dateIsoformat ⟨2024, 3, 15⟩ = "2024-03-15".data
        decide
      · exact Except.noConfusion h
    · exact Except.noConfusion h
  · intro d r h hvt
    rw [_validate_and_structure_data, hvt] at h
    simp only [coerceDecimalField, decimalOfString_1234_50] at h
    split at h
    · next _ _ heq3 =>
      split at h
      · injection h with h'
        subst h'
        injection heq3 with heq3'
        rw [← heq3']
      · exact Except.noConfusion h
    · exact Except.noConfusion h
  · intro d r h
    rw [_validate_and_structure_data] at h
    split at h
    · next heq1 heq2 heq3 =>
      dsimp only at h
      split at h
      · injection h with h'
        subst h'
        exact coerceParcelas_sound d.parcelas _ heq2
      · exact Except.noConfusion h
    · exact Except.noConfusion h

/-- Concrete round-trip instance for the date and amount strings of the claim. -/
theorem validator_roundtrip_normalization_witness :
    _validate_and_structure_data looseRoundtrip = Except.ok validatedRoundtrip ∧
    dateIsoformat validatedRoundtrip.data_emissao = "2024-03-15".data ∧
    validatedRoundtrip.valor_total = (2469 : ℚ) / 2 ∧
    validatedRoundtrip.parcelas.length = looseRoundtrip.parcelas.length ∧
    coerceParcela (looseRoundtrip.parcelas.get ⟨0, by decide⟩) =
      some (validatedRoundtrip.parcelas.get ⟨0, by decide⟩) := by
  refine ⟨validate_looseRoundtrip, ?_, ?_, ?_, ?_⟩
  · exact validator_roundtrip_normalization.1 looseRoundtrip validatedRoundtrip
      validate_looseRoundtrip rfl
  · exact validator_roundtrip_normalization.2.1 looseRoundtrip validatedRoundtrip
      validate_looseRoundtrip rfl
  · exact (validator_roundtrip_normalization.2.2 looseRoundtrip validatedRoundtrip
      validate_looseRoundtrip).1
  · exact (validator_roundtrip_normalization.2.2 looseRoundtrip validatedRoundtrip
      validate_looseRoundtrip).2 0 (by decide) (by decide)

/-- Claim C3: for monotone clock readings the orchestrator's result always carries a success flag and a non-negative elapsed time; a failure at any stage yields success = false with that stage's error message, and no failure escapes the orchestrator. -/
theorem orchestrator_failure_normalization (ext : ExternalCollaborators) (t0 t1 : ℚ)
    (hclock : t0 ≤ t1) :
    0 ≤ (process_pdf ext t0 t1).tempo_processamento ∧
    (∀ m, ext.extract_text = Except.error m →
      process_pdf ext t0 t1 = ⟨false, none, some m, t1 - t0⟩) ∧
    (∀ text m, ext.extract_text = Except.ok text →
      _process_with_gemini ext text = Except.error m →
      process_pdf ext t0 t1 = ⟨false, none, some m, t1 - t0⟩) ∧
    (∀ text dados, ext.extract_text = Except.ok text →
      _process_with_gemini ext text = Except.ok dados →
      process_pdf ext t0 t1 =
        ⟨true, some (_apply_automatic_classification dados text), none, t1 - t0⟩) := by
  refine ⟨?_, ?_, ?_, ?_⟩
  · have htempo : (process_pdf ext t0 t1).tempo_processamento = t1 - t0 := by
      rw [process_pdf]
      split <;> rfl
    rw [htempo]
    linarith
  · intro m hm
    rw [process_pdf, hm]
  · intro text m hok hgem
    rw [process_pdf, hok]
    dsimp only
    rw [hgem]
  · intro text dados hok hgem
    rw [process_pdf, hok]
    dsimp only
    rw [hgem]

/-- Concrete failing-extraction instance of the orchestrator contract. -/
theorem orchestrator_failure_normalization_witness :
    0 ≤ (process_pdf failingCollaborators 0 1).tempo_processamento ∧
    process_pdf failingCollaborators 0 1 =
      ⟨false, none, some "Não foi possível extrair texto do PDF".data, 1 - 0⟩ :=
  ⟨(orchestrator_failure_normalization failingCollaborators 0 1 (by norm_num)).1,
    (orchestrator_failure_normalization failingCollaborators 0 1 (by norm_num)).2.1 _ rfl⟩

/-- Claim C5: the response parser trims whitespace, extracts the content between the first pair of fence markers when a fenced block is present (preferring the tagged fence, else any fence), decodes the result as JSON, and wraps any decode failure as an error carrying the line and column of the failure instead of returning a value. -/
theorem response_parser_contract :
    (∀ raw, containsSub (pystrip raw) fenceMarker = false →
        geminiJsonText raw = pystrip raw) ∧
    (∀ raw A B C, pystrip raw = A ++ fenceJsonMarker ++ B ++ fenceMarker ++ C →
        (∀ c ∈ A, c ≠ '`') → (∀ c ∈ B, c ≠ '`') → (∀ c ∈ C, c ≠ '`') →
        geminiJsonText raw = pystrip B) ∧
    (∀ raw A B C, pystrip raw = A ++ fenceMarker ++ B ++ fenceMarker ++ C →
        containsSub (pystrip raw) fenceJsonMarker = false →
        (∀ c ∈ A, c ≠ '`') → (∀ c ∈ B, c ≠ '`') →
        geminiJsonText raw = pystrip B) ∧
    (∀ raw v, json_loads (geminiJsonText raw) = Except.ok v →
        _parse_gemini_response raw = Except.ok v) ∧
    (∀ raw pos, json_loads (geminiJsonText raw) = Except.error pos →
        _parse_gemini_response raw = Except.error
          (jsonErrorLineno (geminiJsonText raw) pos, jsonErrorColno (geminiJsonText raw) pos)) := by
  refine ⟨?_, ?_, ?_, ?_, ?_⟩
  · intro raw hG
    have hF : containsSub (pystrip raw) fenceJsonMarker = false := by
      cases hcf : containsSub (pystrip raw) fenceJsonMarker with
      | false => rfl
      | true => rw [containsSub_fence_of_fenceJson _ hcf] at hG; exact Bool.noConfusion hG
    simp only [geminiJsonText, hF, hG, Bool.false_eq_true, if_false]
    exact pystrip_idem raw
  · intro raw A B C heq hA hB hC
    have hc : containsSub (A ++ fenceJsonMarker ++ B ++ fenceMarker ++ C)
        fenceJsonMarker = true := by
      rw [show A ++ fenceJsonMarker ++ B ++ fenceMarker ++ C =
          A ++ (fenceJsonMarker ++ (B ++ fenceMarker ++ C)) from by simp [List.append_assoc]]
      exact containsSub_append_marker A _ _ (by decide) hA
    simp only [geminiJsonText]
    rw [heq, if_pos hc, geminiExtract_tagged A B C hA hB hC]
  · intro raw A B C heq hnoF hA hB
    have hc : containsSub (A ++ fenceMarker ++ B ++ fenceMarker ++ C) fenceMarker = true := by
      rw [show A ++ fenceMarker ++ B ++ fenceMarker ++ C =
          A ++ (fenceMarker ++ (B ++ fenceMarker ++ C)) from by simp [List.append_assoc]]
      exact containsSub_append_marker A _ _ (by decide) hA
    rw [heq] at hnoF
    simp only [geminiJsonText]
    rw [heq, if_neg (by rw [hnoF]; exact Bool.noConfusion), if_pos hc,
      geminiExtract_untagged A B C hA hB]
  · intro raw v h
    simp only [_parse_gemini_response, h]
  · intro raw pos h
    simp only [_parse_gemini_response, h]

/-- Concrete fenced and malformed responses exercising the parser contract. -/
theorem response_parser_contract_witness :
    pystrip "```json\n\x7b\x7d\n``` ok".data =
      [] ++ fenceJsonMarker ++ "\n\x7b\x7d\n".data ++ fenceMarker ++ " ok".data ∧
    geminiJsonText "```json\n\x7b\x7d\n``` ok".data = pystrip "\n\x7b\x7d\n".data ∧
    _parse_gemini_response "```json\n\x7b\x7d\n``` ok".data = Except.ok (Json.obj []) ∧
    containsSub (pystrip "\x7binvalid json".data) fenceMarker = false ∧
    geminiJsonText "\x7binvalid json".data = pystrip "\x7binvalid json".data ∧
    _parse_gemini_response "\x7binvalid json".data = Except.error (1, 2) := by
  have h2 := response_parser_contract.2.1 "```json\n\x7b\x7d\n``` ok".data []
    "\n\x7b\x7d\n".data " ok".data (by decide) (by decide) (by decide) (by decide)
  have h1 := response_parser_contract.1 "\x7binvalid json".data (by decide)
  refine ⟨by decide, h2, ?_, by decide, h1, ?_⟩
  · exact response_parser_contract.2.2.2.1 _ (Json.obj []) (by rw [h2]; rfl)
  · have h5 := response_parser_contract.2.2.2.2 "\x7binvalid json".data 1 (by rw [h1]; rfl)
    rw [h5, h1]
    rfl
